import Mathlib

/-!
# Text-to-SQL agent front end: the conversation and query lifecycle

A shallow embedding of `frontend/src/App.js`.  The component keeps three pieces
of state that matter here (`messages`, `input`, `loading`); `handleSubmit` is an
async function whose body runs in two pieces, the part before the first `await`
and the part after the `fetch` promise settles.  Clock readings (`Date.now()`)
and the outcome of the request are inputs of the model.
-/

namespace App

/-! ## JavaScript values coming out of `JSON.parse` -/

/-- A number produced by `JSON.parse`: a finite double, given by the rational it
denotes (both zeros denote `0`), or an infinity (from an overflowing literal). -/
inductive JsNumber where
  | finite (q : ℚ)
  | infinite (negative : Bool)

/-- A parsed JSON value.  An object is the list of its own enumerable properties
in enumeration order, which is the order `Object.keys` and `Object.values`
report. -/
inductive Json where
  | null
  | bool (b : Bool)
  | num (n : JsNumber)
  | str (s : String)
  | arr (items : List Json)
  | obj (props : List (String × Json))

/-- A JavaScript value that may be `undefined` (`none`). -/
abbrev JsVal := Option Json

/-- A thrown JavaScript exception: its `name` and its `message`. -/
structure JsError where
  name : String
  message : String

/-- JavaScript truthiness, as used by `if (data.success)` and by `&&`. -/
def truthy : JsVal → Bool
  | none => false
  | some .null => false
  | some (.bool b) => b
  | some (.num (.finite q)) => decide (q ≠ 0)
  | some (.num (.infinite _)) => true
  | some (.str s) => !s.data.isEmpty
  | some (.arr _) => true
  | some (.obj _) => true

/-- The value of `data.key` for a value `data` other than `null`, for a property
name that no prototype defines (`success`, `sql`, `explanation`, `results`,
`execution_time`, `error`): the own property of an object, `undefined` for
everything else. -/
def Json.field : Json → String → JsVal
  | .obj props, key => props.lookup key
  | _, _ => none

/-- Property access `data.key`: reading a property of `null` throws a
`TypeError`. -/
def getProp (data : Json) (key : String) : Except JsError JsVal :=
  match data with
  | .null => .error ⟨"TypeError", "Cannot read properties of null"⟩
  | d => .ok (d.field key)

/-! ## Strings: `String.prototype.trim` -/

/-- The code points `trim` strips: ECMAScript WhiteSpace and LineTerminator. -/
def isWhiteSpace (c : Char) : Bool :=
  let n := c.toNat
  n = 0x09 || n = 0x0A || n = 0x0B || n = 0x0C || n = 0x0D || n = 0x20 ||
  n = 0xA0 || n = 0x1680 || (0x2000 ≤ n && n ≤ 0x200A) || n = 0x2028 ||
  n = 0x2029 || n = 0x202F || n = 0x205F || n = 0x3000 || n = 0xFEFF

/-- Strip white space from both ends of a character sequence. -/
def trimChars (cs : List Char) : List Char :=
  ((cs.dropWhile isWhiteSpace).reverse.dropWhile isWhiteSpace).reverse

/-- The method `input.trim()`. -/
def trim (s : String) : String := ⟨trimChars s.data⟩

/-- The test `!str` on a string: only the empty string is falsy. -/
def strNot (s : String) : Bool := s.data.isEmpty

/-! ## Message entries and component state -/

/-- An entry of `messages`.  The `type` field of the source object is the
constructor; the remaining fields are the ones the source sets. -/
inductive Message where
  | user (id : Nat) (content : String)
  | assistant (id : Nat) (sql explanation results executionTime : JsVal)
  | error (id : Nat) (content : JsVal)

/-- The `type` field of an entry. -/
def Message.type : Message → String
  | .user .. => "user"
  | .assistant .. => "assistant"
  | .error .. => "error"

/-- The `id` field of an entry. -/
def Message.id : Message → Nat
  | .user id _ => id
  | .assistant id .. => id
  | .error id _ => id

/-- The state of the component that the query lifecycle reads and writes. -/
structure AppState where
  messages : List Message
  input : String
  loading : Bool

/-- The state after the `useState` initialisers. -/
def initialState : AppState := ⟨[], "", false⟩

/-- The request `fetch` is called with; `query` is the object passed to
`JSON.stringify`. -/
structure QueryRequest where
  url : String
  method : String
  query : String

/-- An HTTP response as the code sees it: a status, which it never reads, and a
body that `res.json()` either parses (`some`) or rejects (`none`). -/
structure Response where
  status : Nat
  body : Option Json

/-- How the promise returned by `fetch` settles. -/
inductive FetchOutcome where
  | rejected (err : JsError)
  | responded (res : Response)

/-- The content of the error entry built in the `catch` block. -/
def connectFailure : JsVal := some (.str "Failed to connect to backend")

/-! ## `handleSubmit` -/

/-- The body of `handleSubmit` up to the first `await`: the guard on the trimmed
input, the user entry, and the state updates; returns the request passed to
`fetch`, if one was issued. -/
def handleSubmit (s : AppState) (now : Nat) : AppState × Option QueryRequest :=
  if strNot (trim s.input) then (s, none)
  else
    let userMsg := Message.user now s.input
    let query := s.input
    ({ messages := s.messages ++ [userMsg], input := "", loading := true },
      some ⟨"http://localhost:5000/api/query", "POST", query⟩)

/-- The expression `await fetch(...)`. -/
def awaitFetch : FetchOutcome → Except JsError Response
  | .rejected err => .error err
  | .responded res => .ok res

/-- The expression `await res.json()`. -/
def Response.json (res : Response) : Except JsError Json :=
  match res.body with
  | none => .error ⟨"SyntaxError", "Unexpected token in JSON"⟩
  | some data => .ok data

/-- The `try` block after the request settles.  Its only state update is its
last statement, so an exception leaves the state as it was. -/
def tryBlock (s : AppState) (o : FetchOutcome) (now : Nat) : Except JsError AppState := do
  let res ← awaitFetch o
  let data ← res.json
  let success ← getProp data "success"
  if truthy success then
    let sql ← getProp data "sql"
    let explanation ← getProp data "explanation"
    let results ← getProp data "results"
    let executionTime ← getProp data "execution_time"
    pure { s with messages := s.messages ++ [.assistant now sql explanation results executionTime] }
  else
    let content ← getProp data "error"
    pure { s with messages := s.messages ++ [.error now content] }

/-- The `catch (err)` block: the caught exception is not used. -/
def catchBlock (s : AppState) (_err : JsError) (now : Nat) : Except JsError AppState :=
  pure { s with messages := s.messages ++ [.error now connectFailure] }

/-- The `finally` block. -/
def finallyBlock (s : AppState) : AppState := { s with loading := false }

/-- The rest of `handleSubmit`, run when the request settles, on the state of
that moment (the updaters are functional): `try`, `catch`, `finally`.  The
result is an error when an exception leaves the function. -/
def handleSubmitSettle (s : AppState) (o : FetchOutcome) (now : Nat) : Except JsError AppState :=
  let afterTry : Except JsError AppState :=
    match tryBlock s o now with
    | .ok s1 => .ok s1
    | .error err => catchBlock s err now
  match afterTry with
  | .ok s2 => .ok (finallyBlock s2)
  | .error err => .error err

/-! ## The controls that call `handleSubmit` -/

/-- The `disabled` attribute of the text input. -/
def inputDisabled (s : AppState) : Bool := s.loading

/-- The `disabled` attribute of the Send button. -/
def sendDisabled (s : AppState) : Bool := s.loading || strNot (trim s.input)

/-- The handler `handleKeyPress`: Enter without Shift submits. -/
def handleKeyPress (s : AppState) (key : String) (shiftKey : Bool) (now : Nat) :
    AppState × Option QueryRequest :=
  if key = "Enter" && !shiftKey then handleSubmit s now else (s, none)

/-- The component together with the query requests that have not settled. -/
structure Sys where
  app : AppState
  pending : List QueryRequest

/-- What can happen to the mounted component. -/
inductive Event where
  | change (value : String)
  | keyPress (key : String) (shiftKey : Bool)
  | clickSend
  | clickClear
  | settle (i : Nat) (o : FetchOutcome)

/-- Record the request a handler issued. -/
def Sys.issue (sys : Sys) (r : AppState × Option QueryRequest) : Sys :=
  ⟨r.1, sys.pending ++ r.2.toList⟩

/-- One event at clock reading `now`.  A disabled control dispatches no event,
so its handler does not run; `settle i o` settles the `i`-th outstanding
request, if there is one. -/
def step (sys : Sys) (ev : Event) (now : Nat) : Sys :=
  match ev with
  | .change value =>
    if inputDisabled sys.app then sys else { sys with app := { sys.app with input := value } }
  | .keyPress key shiftKey =>
    if inputDisabled sys.app then sys else sys.issue (handleKeyPress sys.app key shiftKey now)
  | .clickSend =>
    if sendDisabled sys.app then sys else sys.issue (handleSubmit sys.app now)
  | .clickClear => { sys with app := { sys.app with messages := [] } }
  | .settle i o =>
    if i < sys.pending.length then
      match handleSubmitSettle sys.app o now with
      | .ok s => ⟨s, sys.pending.eraseIdx i⟩
      | .error _ => ⟨sys.app, sys.pending.eraseIdx i⟩
    else sys

/-- The mounted component before any event. -/
def Sys.initial : Sys := ⟨initialState, []⟩

/-- Run a sequence of events, each with the clock reading at which it happens. -/
def run (trace : List (Event × Nat)) : Sys :=
  trace.foldl (fun sys e => step sys e.1 e.2) Sys.initial

/-! ## The results table of an assistant entry -/

/-- A result row: the own enumerable properties of a row object, in enumeration
order. -/
abbrev Row := List (String × Json)

/-- The call `Object.keys(row)`. -/
def objectKeys (row : Row) : List String := row.map Prod.fst

/-- The call `Object.values(row)`. -/
def objectValues (row : Row) : List Json := row.map Prod.snd

/-- The property read `row[key]` on a row object. -/
def Row.get (row : Row) (key : String) : JsVal := row.lookup key

/-- The rows of an array all of whose elements are objects. -/
def rowsOf : List Json → Option (List Row)
  | [] => some []
  | .obj props :: rest => (rowsOf rest).map (props :: ·)
  | _ :: _ => none

/-- Whether React throws on a value placed as a child, as in
`<td>{val}</td>`: a plain object is not a valid child. -/
def childThrows : JsVal → Bool
  | some (.obj _) => true
  | _ => false

/-- Whether a child value is an array, whose rendering depends on its elements
and is not followed here. -/
def childNested : JsVal → Bool
  | some (.arr _) => true
  | _ => false

/-- A scalar: `null`, a boolean, a number or a string. -/
def isScalar : Json → Bool
  | .arr _ => false
  | .obj _ => false
  | _ => true

/-- A scalar or `undefined`. -/
def isScalarVal : JsVal → Bool
  | none => true
  | some v => isScalar v

/-- What rendering an entry yields for the block guarded by
`msg.results && msg.results.length > 0`: nothing, the text `0` (a falsy number
is itself the value of the `&&` chain, and React renders it), or a table given
by the texts of its header cells and the values handed to its body cells.
`throws` is a render that raises an exception; `outside` marks values whose
rendering this model does not follow. -/
inductive ResultsView where
  | absent
  | zero
  | table (header : List String) (body : List (List Json))
  | throws
  | outside

/-- The results block of an entry, rendered for assistant entries only.  The
bubble first places `msg.explanation` and `msg.sql` as children.  A falsy
`results` ends the `&&` chain; a truthy one without a positive `length` gives
`false`.  Inside the block `msg.executionTime.toFixed(2)` is evaluated before
the table, and only a number has `toFixed`; the header maps over
`Object.keys(msg.results[0])`, the body maps each row over
`Object.values(row)` and places each value as the child of a cell. -/
def renderResults (msg : Message) : ResultsView :=
  match msg with
  | .assistant _ sql explanation results executionTime =>
    if childThrows explanation || childThrows sql then .throws
    else if childNested explanation || childNested sql then .outside
    else if !truthy results then
      match results with
      | some (.num _) => .zero
      | _ => .absent
    else
      match results with
      | some (.arr items) =>
        if items.isEmpty then .absent
        else
          match executionTime with
          | some (.num _) =>
            match rowsOf items with
            | some (first :: rest) =>
              if (first :: rest).any (fun row => (objectValues row).any (fun v => childThrows (some v)))
              then .throws
              else if (first :: rest).any
                  (fun row => (objectValues row).any (fun v => childNested (some v)))
              then .outside
              else .table (objectKeys first) ((first :: rest).map objectValues)
            | _ => .outside
          | _ => .throws
      | some (.str _) => .throws
      | some (.obj props) => if (props.lookup "length").isNone then .absent else .outside
      | _ => .absent
  | _ => .absent

/-- The value handed to cell `j` of body row `i`, if the table has that cell. -/
def ResultsView.cell : ResultsView → Nat → Nat → Option Json
  | .table _ body, i, j => (body.get? i).bind (fun cells => cells.get? j)
  | _, _, _ => none

/-- The entry a settled request adds, in closed form: the `catch` entry for a
rejected `fetch`, an unparseable body and a `null` body; otherwise the branch
chosen by the truthiness of `data.success`. -/
def settledEntry (o : FetchOutcome) (now : Nat) : Message :=
  match o with
  | .rejected _ => .error now connectFailure
  | .responded ⟨_, none⟩ => .error now connectFailure
  | .responded ⟨_, some .null⟩ => .error now connectFailure
  | .responded ⟨_, some data⟩ =>
    if truthy (data.field "success") then
      .assistant now (data.field "sql") (data.field "explanation") (data.field "results")
        (data.field "execution_time")
    else .error now (data.field "error")

/-- The flag agrees with the outstanding requests: it is set with exactly one
request outstanding, and clear with none. -/
def FlagTracksPending (sys : Sys) : Prop :=
  (sys.app.loading = true ∧ sys.pending.length = 1) ∨
    (sys.app.loading = false ∧ sys.pending = [])

/-- While the flag is set the pending input is empty. -/
def LoadingClearsInput (sys : Sys) : Prop :=
  sys.app.loading = true → sys.app.input = ""

/-- Two result rows with the same set of column keys, the second listing them
in the other order, as in the body `[{"a":1,"b":2},{"b":4,"a":3}]`. -/
def swappedRows : List Row :=
  [[("a", .num (.finite 1)), ("b", .num (.finite 2))],
   [("b", .num (.finite 4)), ("a", .num (.finite 3))]]

/-- An assistant entry whose results are `swappedRows`. -/
def swappedEntry : Message :=
  .assistant 2 (some (.str "SELECT a, b FROM t")) (some (.str "All rows of t"))
    (some (.arr (swappedRows.map Json.obj))) (some (.num (.finite 1)))

/-- A change of the input to `hi`, Enter, and a rejected `fetch`, all at clock
reading 5. -/
def sameMillisecondTrace : List (Event × Nat) :=
  [(.change "hi", 5), (.keyPress "Enter" false, 5),
   (.settle 0 (.rejected ⟨"TypeError", "Failed to fetch"⟩), 5)]

/-! ## Auxiliary facts -/

theorem trimChars_eq_nil_of_all {cs : List Char}
    (h : ∀ c ∈ cs, isWhiteSpace c = true) : trimChars cs = [] := by
  have hd : cs.dropWhile isWhiteSpace = [] := List.dropWhile_eq_nil_iff.mpr h
  simp [trimChars, hd]

theorem strNot_trim_of_all {s : String}
    (h : ∀ c ∈ s.data, isWhiteSpace c = true) : strNot (trim s) = true := by
  simp [strNot, trim, trimChars_eq_nil_of_all h]

theorem strNot_eq_false {s : String} (h : s ≠ "") : strNot s = false := by
  unfold strNot
  cases hc : s.data with
  | nil => exact absurd (String.ext hc) h
  | cons c cs => rfl

/-- An accepted submission: the state and the request after the synchronous
part of `handleSubmit`. -/
theorem handleSubmit_accept (s : AppState) (now : Nat) (h : trim s.input ≠ "") :
    handleSubmit s now =
      (⟨s.messages ++ [.user now s.input], "", true⟩,
        some ⟨"http://localhost:5000/api/query", "POST", s.input⟩) := by
  simp [handleSubmit, strNot_eq_false h]

theorem handleSubmit_reject (s : AppState) (now : Nat) (h : strNot (trim s.input) = true) :
    handleSubmit s now = (s, none) := by
  simp [handleSubmit, h]

theorem handleSubmitSettle_eq (s : AppState) (o : FetchOutcome) (now : Nat) :
    handleSubmitSettle s o now = .ok ⟨s.messages ++ [settledEntry o now], s.input, false⟩ := by
  rcases o with err | ⟨status, body⟩
  · rfl
  · rcases body with _ | data
    · rfl
    · cases data with
      | null => rfl
      | _ =>
        simp only [handleSubmitSettle, tryBlock, awaitFetch, Response.json, getProp, settledEntry,
          catchBlock, finallyBlock, bind, Except.bind, pure, Except.pure]
        split_ifs <;> rfl

theorem settledEntry_type (o : FetchOutcome) (now : Nat) :
    (settledEntry o now).type = "assistant" ∨ (settledEntry o now).type = "error" := by
  unfold settledEntry
  split <;> try (right; rfl)
  split
  · left; rfl
  · right; rfl

theorem step_preserves (sys : Sys) (ev : Event) (now : Nat) (h : FlagTracksPending sys) :
    FlagTracksPending (step sys ev now) := by
  obtain ⟨app, pending⟩ := sys
  rcases h with ⟨hl, hp⟩ | ⟨hl, hp⟩
  · simp only at hl hp
    cases ev with
    | change value => simpa [step, inputDisabled, hl] using Or.inl ⟨hl, hp⟩
    | keyPress key shiftKey => simpa [step, inputDisabled, hl] using Or.inl ⟨hl, hp⟩
    | clickSend => simpa [step, sendDisabled, hl] using Or.inl ⟨hl, hp⟩
    | clickClear => exact Or.inl ⟨hl, hp⟩
    | settle i o =>
      by_cases hi : i < pending.length
      · right
        have h0 : i = 0 := by omega
        subst h0
        match pending, hp with
        | [r], _ => simp [step, handleSubmitSettle_eq]
      · simpa [step, hi] using Or.inl ⟨hl, hp⟩
  · simp only at hl hp
    subst hp
    cases ev with
    | change value =>
      right
      simp [step, inputDisabled, hl]
    | keyPress key shiftKey =>
      by_cases hk : (key = "Enter" && !shiftKey) = true
      · by_cases hb : strNot (trim app.input) = true
        · right
          simp [step, inputDisabled, hl, handleKeyPress, hk, handleSubmit, hb, Sys.issue]
        · left
          simp [step, inputDisabled, hl, handleKeyPress, hk, handleSubmit, hb, Sys.issue]
      · right
        simp [step, inputDisabled, hl, handleKeyPress, hk, Sys.issue]
    | clickSend =>
      by_cases hb : strNot (trim app.input) = true
      · right
        simp [step, sendDisabled, hl, hb]
      · left
        simp [step, sendDisabled, hl, handleSubmit, hb, Sys.issue]
    | clickClear => exact Or.inr ⟨hl, rfl⟩
    | settle i o => simpa [step] using Or.inr ⟨hl, rfl⟩

theorem foldl_step_preserves (trace : List (Event × Nat)) :
    ∀ sys : Sys, FlagTracksPending sys →
      FlagTracksPending (trace.foldl (fun sys e => step sys e.1 e.2) sys) := by
  induction trace with
  | nil => intro sys h; exact h
  | cons e rest ih => intro sys h; exact ih _ (step_preserves sys e.1 e.2 h)

theorem run_flagTracksPending (trace : List (Event × Nat)) : FlagTracksPending (run trace) :=
  foldl_step_preserves trace Sys.initial (Or.inr ⟨rfl, rfl⟩)

theorem rowsOf_map_obj (rows : List Row) : rowsOf (rows.map Json.obj) = some rows := by
  induction rows with
  | nil => rfl
  | cons r rest ih => simp [rowsOf, ih]

theorem lookup_eq_values_get? (row : Row) :
    ∀ (j : Nat) (key : String), (objectKeys row).Nodup → (objectKeys row).get? j = some key →
      row.lookup key = (objectValues row).get? j := by
  induction row with
  | nil => intro j key _ h; simp [objectKeys] at h
  | cons kv rest ih =>
    obtain ⟨k, v⟩ := kv
    intro j key hnd h
    have hnd2 : k ∉ objectKeys rest ∧ (objectKeys rest).Nodup := by
      simpa [objectKeys] using hnd
    cases j with
    | zero =>
      have hk : k = key := by simpa [objectKeys] using h
      subst hk
      simp [objectValues, List.lookup]
    | succ j =>
      have hget : (objectKeys rest).get? j = some key := by simpa [objectKeys] using h
      have hmem : key ∈ objectKeys rest := List.get?_mem hget
      have hne : key ≠ k := fun e => hnd2.1 (e ▸ hmem)
      have hbeq : (key == k) = false := by simpa using hne
      have := ih j key hnd2.2 hget
      simpa [objectValues, List.lookup, hbeq] using this

theorem step_preserves_input (sys : Sys) (ev : Event) (now : Nat)
    (h : LoadingClearsInput sys) : LoadingClearsInput (step sys ev now) := by
  obtain ⟨⟨messages, input, loading⟩, pending⟩ := sys
  unfold LoadingClearsInput at h ⊢
  simp only at h
  cases ev with
  | change value =>
    cases loading
    · simp [step, inputDisabled]
    · simpa [step, inputDisabled] using h
  | keyPress key shiftKey =>
    cases loading
    · by_cases hk : (key = "Enter" && !shiftKey) = true
      · by_cases hb : strNot (trim input) = true
        · simp [step, inputDisabled, handleKeyPress, hk, handleSubmit, hb, Sys.issue]
        · simp [step, inputDisabled, handleKeyPress, hk, handleSubmit, hb, Sys.issue]
      · simp [step, inputDisabled, handleKeyPress, hk, Sys.issue]
    · simpa [step, inputDisabled] using h
  | clickSend =>
    cases loading
    · by_cases hb : strNot (trim input) = true
      · simp [step, sendDisabled, hb]
      · simp [step, sendDisabled, handleSubmit, hb, Sys.issue]
    · simpa [step, sendDisabled] using h
  | clickClear => simpa [step] using h
  | settle i o =>
    by_cases hi : i < pending.length
    · simp [step, hi, handleSubmitSettle_eq]
    · simpa [step, hi] using h

theorem foldl_step_preserves_input (trace : List (Event × Nat)) :
    ∀ sys : Sys, LoadingClearsInput sys →
      LoadingClearsInput (trace.foldl (fun sys e => step sys e.1 e.2) sys) := by
  induction trace with
  | nil => intro sys h; exact h
  | cons e rest ih => intro sys h; exact ih _ (step_preserves_input sys e.1 e.2 h)

theorem run_loadingClearsInput (trace : List (Event × Nat)) : LoadingClearsInput (run trace) :=
  foldl_step_preserves_input trace Sys.initial (fun _ => rfl)

theorem handleSubmit_empty_input (s : AppState) (now : Nat) (h : s.input = "") :
    handleSubmit s now = (s, none) := by
  apply handleSubmit_reject
  rw [h]
  rfl

theorem childThrows_of_scalar {v : JsVal} (h : isScalarVal v = true) : childThrows v = false := by
  rcases v with _ | j
  · rfl
  · cases j <;> first | rfl | simp [isScalarVal, isScalar] at h

theorem childNested_of_scalar {v : JsVal} (h : isScalarVal v = true) : childNested v = false := by
  rcases v with _ | j
  · rfl
  · cases j <;> first | rfl | simp [isScalarVal, isScalar] at h

theorem any_cell_false (rows : List Row) (f : JsVal → Bool)
    (hf : ∀ v : Json, isScalar v = true → f (some v) = false)
    (hcells : ∀ row ∈ rows, ∀ v ∈ objectValues row, isScalar v = true) :
    rows.any (fun row => (objectValues row).any (fun v => f (some v))) = false := by
  rw [Bool.eq_false_iff]
  intro hany
  rw [List.any_eq_true] at hany
  obtain ⟨row, hrow, hv⟩ := hany
  rw [List.any_eq_true] at hv
  obtain ⟨v, hv, hfv⟩ := hv
  rw [hf v (hcells row hrow v hv)] at hfv
  exact Bool.noConfusion hfv

/-! ## The claims -/

/-- Claim C1: for an input that is non-empty after trimming, any prior state and
any outcome of the request, `handleSubmit` and then the settling of its request
leave the store equal to the prior store followed by one user entry and then
exactly one entry that is an assistant entry or an error entry. -/
theorem handleSubmit_then_settle_appends_two (s : AppState) (o : FetchOutcome) (t1 t2 : Nat)
    (h : trim s.input ≠ "") :
    ∃ (u r : Message) (s2 : AppState),
      (handleSubmit s t1).2.isSome = true ∧
      (handleSubmit s t1).1.messages = s.messages ++ [u] ∧
      handleSubmitSettle (handleSubmit s t1).1 o t2 = .ok s2 ∧
      s2.messages = s.messages ++ [u, r] ∧
      u.type = "user" ∧ (r.type = "assistant" ∨ r.type = "error") := by
  refine ⟨.user t1 s.input, settledEntry o t2, _, ?_, ?_, handleSubmitSettle_eq _ o t2, ?_, rfl,
    settledEntry_type o t2⟩
  · rw [handleSubmit_accept s t1 h]; rfl
  · rw [handleSubmit_accept s t1 h]
  · rw [handleSubmit_accept s t1 h]; simp

theorem handleSubmit_then_settle_appends_two_witness :
    trim (AppState.mk [] "hi" false).input ≠ "" ∧
    ∃ (u r : Message) (s2 : AppState),
      (handleSubmit ⟨[], "hi", false⟩ 1).2.isSome = true ∧
      (handleSubmit ⟨[], "hi", false⟩ 1).1.messages = [] ++ [u] ∧
      handleSubmitSettle (handleSubmit ⟨[], "hi", false⟩ 1).1
        (.rejected ⟨"TypeError", "Failed to fetch"⟩) 2 = .ok s2 ∧
      s2.messages = [] ++ [u, r] ∧
      u.type = "user" ∧ (r.type = "assistant" ∨ r.type = "error") :=
  ⟨by decide, handleSubmit_then_settle_appends_two ⟨[], "hi", false⟩
    (.rejected ⟨"TypeError", "Failed to fetch"⟩) 1 2 (by decide)⟩

/-- Claim C2: in every state the component reaches in which the in-flight flag
is set, whatever text a change of the input then carries, calling
`handleSubmit`, directly or through `handleKeyPress`, is a no-op: the state
(store, flag and pending input) is returned unchanged and no request is
issued; and over every sequence of events at most one query request is
outstanding. -/
theorem handleSubmit_noop_while_loading (trace : List (Event × Nat)) (now : Nat)
    (h : (run trace).app.loading = true) :
    handleSubmit (run trace).app now = ((run trace).app, none) ∧
    (∀ key shiftKey, handleKeyPress (run trace).app key shiftKey now = ((run trace).app, none)) ∧
    (∀ value t, handleSubmit (step (run trace) (.change value) t).app now =
      ((run trace).app, none)) ∧
    ∀ trace2, (run trace2).pending.length ≤ 1 := by
  have hs : handleSubmit (run trace).app now = ((run trace).app, none) :=
    handleSubmit_empty_input _ now (run_loadingClearsInput trace h)
  refine ⟨hs, ?_, ?_, ?_⟩
  · intro key shiftKey
    unfold handleKeyPress
    split
    · exact hs
    · rfl
  · intro value t
    have hstep : step (run trace) (.change value) t = run trace := by
      simp [step, inputDisabled, h]
    rw [hstep]
    exact hs
  · intro trace2
    rcases run_flagTracksPending trace2 with ⟨_, hp⟩ | ⟨_, hp⟩
    · exact le_of_eq hp
    · simp [hp]

theorem handleSubmit_noop_while_loading_witness :
    (run [(.change "hi", 5), (.clickSend, 6)]).app.loading = true ∧
    (handleSubmit (run [(.change "hi", 5), (.clickSend, 6)]).app 7 =
        ((run [(.change "hi", 5), (.clickSend, 6)]).app, none) ∧
      (∀ key shiftKey,
        handleKeyPress (run [(.change "hi", 5), (.clickSend, 6)]).app key shiftKey 7 =
          ((run [(.change "hi", 5), (.clickSend, 6)]).app, none)) ∧
      (∀ value t,
        handleSubmit (step (run [(.change "hi", 5), (.clickSend, 6)]) (.change value) t).app 7 =
          ((run [(.change "hi", 5), (.clickSend, 6)]).app, none)) ∧
      ∀ trace2, (run trace2).pending.length ≤ 1) :=
  ⟨by decide, handleSubmit_noop_while_loading [(.change "hi", 5), (.clickSend, 6)] 7
    (by decide)⟩

/-- Claim C3, as stated, fails: for the input `  show all customers  ` the user
entry and the request both carry the input with its surrounding spaces, not the
trimmed text. -/
theorem handleSubmit_keeps_surrounding_space :
    trim "  show all customers  " = "show all customers" ∧
    (handleSubmit ⟨[], "  show all customers  ", false⟩ 1).1.messages =
      [.user 1 "  show all customers  "] ∧
    (handleSubmit ⟨[], "  show all customers  ", false⟩ 1).2.map QueryRequest.query =
      some "  show all customers  " ∧
    "  show all customers  " ≠ "show all customers" :=
  ⟨by decide, rfl, rfl, by decide⟩

/-- Claim C3, amended: for an input that is non-empty after trimming, the user
entry appended by `handleSubmit` has the input itself as content, untrimmed, and
the request body is the object whose `query` is that same untrimmed input. -/
theorem handleSubmit_sends_input_verbatim (s : AppState) (now : Nat)
    (h : trim s.input ≠ "") :
    (handleSubmit s now).1.messages = s.messages ++ [.user now s.input] ∧
    (handleSubmit s now).2.map QueryRequest.query = some s.input := by
  rw [handleSubmit_accept s now h]
  exact ⟨rfl, rfl⟩

theorem handleSubmit_sends_input_verbatim_witness :
    trim (AppState.mk [] "  show all customers  " false).input ≠ "" ∧
    ((handleSubmit ⟨[], "  show all customers  ", false⟩ 1).1.messages =
        [] ++ [.user 1 "  show all customers  "] ∧
      (handleSubmit ⟨[], "  show all customers  ", false⟩ 1).2.map QueryRequest.query =
        some "  show all customers  ") :=
  ⟨by decide, handleSubmit_sends_input_verbatim ⟨[], "  show all customers  ", false⟩ 1
    (by decide)⟩

/-- Claim C4: for an input that is empty or consists only of white space, and
any prior state, `handleSubmit` returns the state unchanged (store, input and
flag) and issues no request. -/
theorem handleSubmit_blank_noop (s : AppState) (now : Nat)
    (h : ∀ c ∈ s.input.data, isWhiteSpace c = true) :
    handleSubmit s now = (s, none) :=
  handleSubmit_reject s now (strNot_trim_of_all h)

theorem handleSubmit_blank_noop_witness :
    (∀ c ∈ (AppState.mk [.user 1 "hi"] ⟨[Char.ofNat 32, Char.ofNat 9, Char.ofNat 160]⟩ true).input.data,
      isWhiteSpace c = true) ∧
    handleSubmit ⟨[.user 1 "hi"], ⟨[Char.ofNat 32, Char.ofNat 9, Char.ofNat 160]⟩, true⟩ 2 =
      (⟨[.user 1 "hi"], ⟨[Char.ofNat 32, Char.ofNat 9, Char.ofNat 160]⟩, true⟩, none) :=
  ⟨by decide, handleSubmit_blank_noop
    ⟨[.user 1 "hi"], ⟨[Char.ofNat 32, Char.ofNat 9, Char.ofNat 160]⟩, true⟩ 2 (by decide)⟩

/-- Claim C5: the flag is clear in the initial state; in every state reached by
a sequence of events it is set exactly when one request is outstanding and clear
exactly when none is; an accepted submission sets it and issues the request; and
handling the settled request clears it for every outcome, from any state. -/
theorem loading_tracks_outstanding_request (trace : List (Event × Nat)) (s s1 : AppState)
    (o : FetchOutcome) (t1 t2 : Nat) (h : trim s.input ≠ "") :
    initialState.loading = false ∧
    ((run trace).app.loading = true ↔ (run trace).pending.length = 1) ∧
    ((run trace).app.loading = false ↔ (run trace).pending = []) ∧
    (handleSubmit s t1).1.loading = true ∧ (handleSubmit s t1).2.isSome = true ∧
    ∃ s2, handleSubmitSettle s1 o t2 = .ok s2 ∧ s2.loading = false := by
  refine ⟨rfl, ?_, ?_, ?_, ?_, _, handleSubmitSettle_eq s1 o t2, rfl⟩
  · rcases run_flagTracksPending trace with ⟨hl, hp⟩ | ⟨hl, hp⟩
    · simp [hl, hp]
    · simp [hl, hp]
  · rcases run_flagTracksPending trace with ⟨hl, hp⟩ | ⟨hl, hp⟩
    · constructor
      · intro h2; simp [hl] at h2
      · intro h2; simp [h2] at hp
    · simp [hl, hp]
  · rw [handleSubmit_accept s t1 h]
  · rw [handleSubmit_accept s t1 h]; rfl

theorem loading_tracks_outstanding_request_witness :
    trim (AppState.mk [] "hi" false).input ≠ "" ∧
    (initialState.loading = false ∧
    ((run [(.change "hi", 5), (.clickSend, 6)]).app.loading = true ↔
      (run [(.change "hi", 5), (.clickSend, 6)]).pending.length = 1) ∧
    ((run [(.change "hi", 5), (.clickSend, 6)]).app.loading = false ↔
      (run [(.change "hi", 5), (.clickSend, 6)]).pending = []) ∧
    (handleSubmit ⟨[], "hi", false⟩ 6).1.loading = true ∧
    (handleSubmit ⟨[], "hi", false⟩ 6).2.isSome = true ∧
    ∃ s2, handleSubmitSettle ⟨[.user 6 "hi"], "", true⟩
      (.responded ⟨200, none⟩) 8 = .ok s2 ∧ s2.loading = false) :=
  ⟨by decide, loading_tracks_outstanding_request [(.change "hi", 5), (.clickSend, 6)]
    ⟨[], "hi", false⟩ ⟨[.user 6 "hi"], "", true⟩ (.responded ⟨200, none⟩) 6 8 (by decide)⟩

/-- Claim C6: for a response body whose `success` is the boolean `b`, the entry
appended is, when `b` is true, an assistant entry whose `sql`, `explanation`,
`results` and `executionTime` are the body's `sql`, `explanation`, `results`
and `execution_time`, and, when `b` is false, an error entry whose content is
the body's `error`; the flag is cleared. -/
theorem settle_wellformed_response (s : AppState) (status now : Nat)
    (props : List (String × Json)) (b : Bool)
    (h : props.lookup "success" = some (.bool b)) :
    handleSubmitSettle s (.responded ⟨status, some (.obj props)⟩) now =
      .ok ⟨s.messages ++
        [if b = true then
          .assistant now (props.lookup "sql") (props.lookup "explanation")
            (props.lookup "results") (props.lookup "execution_time")
        else .error now (props.lookup "error")], s.input, false⟩ := by
  rw [handleSubmitSettle_eq]
  cases b <;> simp [settledEntry, Json.field, h, truthy]

theorem settle_wellformed_response_witness :
    List.lookup "success" [("success", Json.bool false), ("error", Json.str "ambiguous column")] =
      some (.bool false) ∧
    handleSubmitSettle ⟨[.user 1 "q"], "", true⟩
      (.responded ⟨200, some (.obj [("success", .bool false), ("error", .str "ambiguous column")])⟩)
      2 = .ok ⟨[.user 1 "q"] ++ [.error 2 (some (.str "ambiguous column"))], "", false⟩ :=
  ⟨rfl, settle_wellformed_response ⟨[.user 1 "q"], "", true⟩ 200 2
    [("success", .bool false), ("error", .str "ambiguous column")] false rfl⟩

/-- Claim C7: when `fetch` rejects, whatever the exception and its message, the
entry appended is an error entry with the content `Failed to connect to
backend`, and for every outcome the function completes without an exception
leaving it. -/
theorem network_failure_fixed_message (s : AppState) (err : JsError) (now : Nat) :
    handleSubmitSettle s (.rejected err) now =
      .ok ⟨s.messages ++ [.error now (some (.str "Failed to connect to backend"))],
        s.input, false⟩ ∧
    ∀ o : FetchOutcome, ∃ s2, handleSubmitSettle s o now = .ok s2 :=
  ⟨rfl, fun o => ⟨_, handleSubmitSettle_eq s o now⟩⟩

/-- Claim C8, as stated, fails: a status 500 response with a failure body yields
the body's own error text, a status 200 response with body `{}` yields an error
entry with undefined content, and a status 500 response whose body has a true
`success` yields an assistant entry; none is the fixed connectivity entry that
a rejected `fetch` yields. -/
theorem status_and_shape_not_checked :
    handleSubmitSettle initialState
      (.responded ⟨500, some (.obj [("success", .bool false), ("error", .str "boom")])⟩) 9 =
        .ok ⟨[.error 9 (some (.str "boom"))], "", false⟩ ∧
    handleSubmitSettle initialState (.responded ⟨200, some (.obj [])⟩) 9 =
        .ok ⟨[.error 9 none], "", false⟩ ∧
    handleSubmitSettle initialState (.responded ⟨500, some (.obj [("success", .bool true)])⟩) 9 =
        .ok ⟨[.assistant 9 none none none none], "", false⟩ ∧
    handleSubmitSettle initialState (.rejected ⟨"TypeError", "Failed to fetch"⟩) 9 =
        .ok ⟨[.error 9 (some (.str "Failed to connect to backend"))], "", false⟩ ∧
    Message.error 9 (some (.str "boom")) ≠
      Message.error 9 (some (.str "Failed to connect to backend")) ∧
    Message.error 9 none ≠ Message.error 9 (some (.str "Failed to connect to backend")) ∧
    Message.assistant 9 none none none none ≠
      Message.error 9 (some (.str "Failed to connect to backend")) := by
  refine ⟨rfl, rfl, rfl, rfl, ?_, ?_, ?_⟩
  · intro h
    injection h with _ h
    injection h with h
    injection h with h
    exact absurd h (by decide)
  · intro h
    injection h with _ h
    cases h
  · intro h
    cases h

/-- Claim C8, amended: the status is never read.  A response whose body is not
parseable, or parses to `null`, is handled exactly like a rejected `fetch`: an
error entry with the fixed connectivity message.  Any other body is classified
by the truthiness of its `success` property alone: truthy gives an assistant
entry built from the body's fields, falsy or absent gives an error entry whose
content is the body's `error` property (undefined when absent). -/
theorem settle_classifies_by_body (s : AppState) (status now : Nat) (body : Option Json)
    (err : JsError) :
    handleSubmitSettle s (.responded ⟨status, body⟩) now =
      match body with
      | none => handleSubmitSettle s (.rejected err) now
      | some .null => handleSubmitSettle s (.rejected err) now
      | some data =>
        .ok ⟨s.messages ++
          [if truthy (data.field "success") = true then
            .assistant now (data.field "sql") (data.field "explanation") (data.field "results")
              (data.field "execution_time")
          else .error now (data.field "error")], s.input, false⟩ := by
  rw [handleSubmitSettle_eq]
  rcases body with _ | data
  · rfl
  · cases data <;> rfl

/-- Claim C9, as stated, fails: the two rows of `swappedEntry` have the same set
of column keys, the header is `[a, b]`, and the first cell of the second body
row shows 4, the first value of that row, while the row's value at header key
`a` is 3. -/
theorem renderResults_follows_row_order :
    (∀ row ∈ swappedRows, ∀ k, k ∈ objectKeys row ↔ k ∈ ["a", "b"]) ∧
    renderResults swappedEntry =
      .table ["a", "b"]
        [[.num (.finite 1), .num (.finite 2)], [.num (.finite 4), .num (.finite 3)]] ∧
    (renderResults swappedEntry).cell 1 0 = some (.num (.finite 4)) ∧
    (swappedRows.get? 1).bind (fun row => row.get "a") = some (.num (.finite 3)) ∧
    (some (.num (.finite 4)) : JsVal) ≠ some (.num (.finite 3)) := by
  refine ⟨?_, rfl, rfl, rfl, ?_⟩
  · intro row hrow k
    simp only [swappedRows, List.mem_cons, List.mem_singleton, List.not_mem_nil, or_false] at hrow
    rcases hrow with rfl | rfl
    · simp [objectKeys]
    · simp [objectKeys, or_comm]
  · intro h
    injection h with h
    injection h with h
    injection h with h
    norm_num at h

/-- Claim C9, amended: for an assistant entry with scalar `sql` and
`explanation`, a numeric execution time and result rows of scalar values that
all have the key sequence of the first row, in the same order, with distinct
keys, the table's header is the key sequence of the first row, it has one body
row per result row in the same order, each body row being that row's values,
and cell `j` of body row `i` is the value of result row `i` at header key
`j`. -/
theorem renderResults_same_key_order (id : Nat) (sql explanation : JsVal) (n : JsNumber)
    (first : Row) (rest : List Row)
    (hsql : isScalarVal sql = true) (hexp : isScalarVal explanation = true)
    (hcells : ∀ row ∈ first :: rest, ∀ v ∈ objectValues row, isScalar v = true)
    (hkeys : ∀ row ∈ rest, objectKeys row = objectKeys first)
    (hnodup : (objectKeys first).Nodup) :
    renderResults (.assistant id sql explanation (some (.arr ((first :: rest).map Json.obj)))
        (some (.num n))) =
      .table (objectKeys first) ((first :: rest).map objectValues) ∧
    ((first :: rest).map objectValues).length = (first :: rest).length ∧
    ∀ (i j : Nat) (row : Row) (key : String),
      (first :: rest).get? i = some row → (objectKeys first).get? j = some key →
        ((first :: rest).map objectValues).get? i = some (objectValues row) ∧
        (renderResults (.assistant id sql explanation
          (some (.arr ((first :: rest).map Json.obj))) (some (.num n)))).cell i j =
            row.get key := by
  have hthrow := any_cell_false (first :: rest) childThrows
    (fun v hv => childThrows_of_scalar (v := some v) hv) hcells
  have hnest := any_cell_false (first :: rest) childNested
    (fun v hv => childNested_of_scalar (v := some v) hv) hcells
  have hrender : renderResults (.assistant id sql explanation
      (some (.arr ((first :: rest).map Json.obj))) (some (.num n))) =
      .table (objectKeys first) ((first :: rest).map objectValues) := by
    simp only [renderResults, truthy, Bool.not_true, rowsOf_map_obj,
      childThrows_of_scalar hsql, childThrows_of_scalar hexp, childNested_of_scalar hsql,
      childNested_of_scalar hexp, hthrow, hnest]
    rfl
  refine ⟨hrender, by simp, ?_⟩
  intro i j row key hi hj
  have hrow : ((first :: rest).map objectValues).get? i = some (objectValues row) := by
    rw [List.get?_eq_getElem?, List.getElem?_map, ← List.get?_eq_getElem?, hi]; rfl
  have hmem : row ∈ first :: rest := List.get?_mem hi
  have hk : objectKeys row = objectKeys first := by
    rcases List.mem_cons.mp hmem with rfl | hr
    · rfl
    · exact hkeys row hr
  refine ⟨hrow, ?_⟩
  rw [hrender]
  simp only [ResultsView.cell, hrow, Option.bind, Row.get]
  exact (lookup_eq_values_get? row j key (hk ▸ hnodup) (hk ▸ hj)).symm

theorem renderResults_same_key_order_witness :
    isScalarVal (some (.str "SELECT a, b FROM t")) = true ∧
    isScalarVal (some (.str "All rows of t")) = true ∧
    (∀ row ∈ [[("a", Json.num (.finite 1)), ("b", Json.num (.finite 2))],
        [("a", Json.num (.finite 3)), ("b", Json.num (.finite 4))]],
      ∀ v ∈ objectValues row, isScalar v = true) ∧
    (∀ row ∈ [[("a", Json.num (.finite 3)), ("b", Json.num (.finite 4))]],
      objectKeys row = objectKeys [("a", Json.num (.finite 1)), ("b", Json.num (.finite 2))]) ∧
    (objectKeys [("a", Json.num (.finite 1)), ("b", Json.num (.finite 2))]).Nodup ∧
    renderResults (.assistant 2 (some (.str "SELECT a, b FROM t")) (some (.str "All rows of t"))
        (some (.arr
          [.obj [("a", .num (.finite 1)), ("b", .num (.finite 2))],
           .obj [("a", .num (.finite 3)), ("b", .num (.finite 4))]]))
        (some (.num (.finite 1)))) =
      .table ["a", "b"]
        [[.num (.finite 1), .num (.finite 2)], [.num (.finite 3), .num (.finite 4)]] ∧
    (renderResults (.assistant 2 (some (.str "SELECT a, b FROM t")) (some (.str "All rows of t"))
        (some (.arr
          [.obj [("a", .num (.finite 1)), ("b", .num (.finite 2))],
           .obj [("a", .num (.finite 3)), ("b", .num (.finite 4))]]))
        (some (.num (.finite 1))))).cell 1 0 =
      Row.get [("a", .num (.finite 3)), ("b", .num (.finite 4))] "a" :=
  have hc : ∀ row ∈ [[("a", Json.num (.finite 1)), ("b", Json.num (.finite 2))],
        [("a", Json.num (.finite 3)), ("b", Json.num (.finite 4))]],
      ∀ v ∈ objectValues row, isScalar v = true := by
    intro row hrow v hv
    simp only [List.mem_cons, List.mem_singleton, List.not_mem_nil, or_false] at hrow
    rcases hrow with rfl | rfl <;>
      simp only [objectValues, List.map, List.mem_cons, List.mem_singleton, List.not_mem_nil,
        or_false] at hv <;>
      rcases hv with rfl | rfl <;> rfl
  have h := renderResults_same_key_order 2 (some (.str "SELECT a, b FROM t"))
    (some (.str "All rows of t")) (.finite 1)
    [("a", .num (.finite 1)), ("b", .num (.finite 2))]
    [[("a", .num (.finite 3)), ("b", .num (.finite 4))]] rfl rfl hc (by simp [objectKeys])
    (by decide)
  ⟨rfl, rfl, hc, by simp [objectKeys], by decide, h.1,
    (h.2.2 1 0 [("a", .num (.finite 3)), ("b", .num (.finite 4))] "a" rfl rfl).2⟩

/-- Claim C10 fails on the code: with the clock reading 5 at the submission and
again when the request settles, a non-decreasing sequence of readings, the
store holds two entries whose ids are both 5, so the ids are not distinct. -/
theorem duplicate_ids_in_same_millisecond :
    (sameMillisecondTrace.map Prod.snd).Pairwise (· ≤ ·) ∧
    (run sameMillisecondTrace).app.messages =
      [.user 5 "hi", .error 5 (some (.str "Failed to connect to backend"))] ∧
    (run sameMillisecondTrace).app.messages.map Message.id = [5, 5] ∧
    ¬ ((run sameMillisecondTrace).app.messages.map Message.id).Nodup :=
  ⟨by decide, rfl, rfl, by decide⟩

end App
